import Mathlib

/-!
Verification of the hypervector visualization pipeline
(`scripts/visualize.py`): decode → reduce → select → render.

The pipeline is embedded shallowly: machine words are `Nat` (bit `k` of a
64-bit word is `w / 2 ^ k % 2`, which for `k < 64` agrees with the
corresponding bit of `w % 2 ^ 64`), floating-point usage normalization is
modelled over `ℚ` (the numpy operations on the integer usages and their
min/max are exact at the endpoints), and the staged control flow of
`visualize` is modelled as an event trace.
-/

namespace Visualize

/-- Word width of a packed vector word: the script parses `item['vector']`
as `np.uint64` (`visualize.py` line 27). -/
def wordWidth : Nat := 64

/-- Bit `j` (0-based) of the dense decoding of one 64-bit word, as computed
by `arr_u64.view(np.uint8)` followed by `np.unpackbits` (`visualize.py`
lines 28–29): the word is split into 8 bytes least-significant byte first
(the little-endian memory view used on the platforms the script runs on),
and each byte is unpacked most-significant bit first (numpy's default bit
order). So bit `j` comes from bit position `8 * (j / 8) + (7 - j % 8)` of
the word. -/
def wordBit (w : Nat) (j : Nat) : Nat :=
  w / 2 ^ (8 * (j / 8) + (7 - j % 8)) % 2

/-- Dense decoding of one packed word: the 64 bits produced for that word
by `np.unpackbits` in `visualize.py` lines 27–29. -/
def decodeWord (w : Nat) : List Nat :=
  (List.range wordWidth).map (wordBit w)

/-- Dense decoding of one record's packed-word vector: the per-word bit
lists concatenated in stored word order (`visualize.py` lines 26–31). -/
def decodeVector (words : List Nat) : List Nat :=
  (words.map decodeWord).flatten

/-- The decoding the spec's words describe, for comparison with
`decodeVector`: bit `i` of the decoded vector is
`(words[i / word_width] >> (i mod word_width)) & 1`,
least-significant-bit first within each word. -/
def decodeVectorSpec (words : List Nat) : List Nat :=
  (List.range (words.length * wordWidth)).map
    (fun i => words.getD (i / wordWidth) 0 / 2 ^ (i % wordWidth) % 2)

/-- The `term` field of a record as parsed from JSON: either a plain string
or a nested tagged structure (the `Atom`/`Compound` export shape), whose
contents the pipeline never inspects. -/
inductive TermValue where
  | str : String → TermValue
  | tagged : List (String × String) → TermValue
deriving DecidableEq

/-- One record of the loaded dataset: `{term, usage, vector}`
(`visualize.py` lines 23–26). Usages are non-negative integers and vector
words are unsigned. -/
structure ConceptRecord where
  term : TermValue
  usage : Nat
  vector : List Nat
deriving DecidableEq

/-- Errors that terminate a run of the script, identified by the stage that
raises them: `dimensionMismatch` is the `ValueError` numpy raises in
`decode_vectors` when `np.array(vectors)` (line 34) receives rows of
unequal length; `insufficientData` is the `ValueError` scikit-learn's
t-SNE raises when `perplexity ≥ n_samples`; `annotationTypeError` is the
`AttributeError` raised by `term.lower()` (line 86) on a non-string term.
`emptyDataset` is named by the spec's taxonomy; it is included so the
spec's claim about it can be stated. -/
inductive VisError where
  | dimensionMismatch
  | insufficientData
  | emptyDataset
  | annotationTypeError
deriving DecidableEq

/-- The decode stage (`decode_vectors`, `visualize.py` lines 13–34): each
record contributes its decoded bit row, its term and its usage; the final
`np.array(vectors)` raises a `ValueError` when the bit rows are ragged,
i.e. exactly when some record's word count differs from the first
record's (each row's length is 64 × word count). -/
def decode_vectors (data : List ConceptRecord) :
    Except VisError (List (List Nat) × List TermValue × List Nat) :=
  if data.all (fun r => r.vector.length = ((data.head?).map (fun r0 => r0.vector.length)).getD 0)
  then .ok (data.map (fun r => decodeVector r.vector),
            data.map (fun r => r.term),
            data.map (fun r => r.usage))
  else .error .dimensionMismatch

/-- numpy `min` over the usage array (defined only for nonempty input in
numpy; the 0 default is never reached in the pipeline, which returns
before this point on empty data). -/
def npMin : List Nat → Nat
  | [] => 0
  | x :: xs => xs.foldl Nat.min x

/-- numpy `max` over the usage array. -/
def npMax : List Nat → Nat
  | [] => 0
  | x :: xs => xs.foldl Nat.max x

/-- Usage normalization (`visualize.py` lines 68–72): min–max scaling when
`len(usages) > 0 and usages.max() > usages.min()`, otherwise all zeros.
(For an empty list both branches give the empty list, so the
`len(usages) > 0` guard is absorbed into the comparison.) -/
def normUsages (usages : List Nat) : List ℚ :=
  if npMin usages < npMax usages then
    usages.map (fun (u : Nat) =>
      ((u : ℚ) - (npMin usages : ℚ)) / ((npMax usages : ℚ) - (npMin usages : ℚ)))
  else
    usages.map (fun _ => 0)

/-- The configured keyword list (`visualize.py` line 80). -/
def target_keywords : List String :=
  ["cat", "dog", "wolf", "animal", "car", "truck", "bicycle", "vehicle"]

/-- Python's `str.lower()` on the character sequence of a label. -/
def strLower (s : List Char) : List Char := s.map Char.toLower

/-- `any(k in term_lower for k in target_keywords)` (`visualize.py`
line 88): some configured keyword is a contiguous substring of the
lowercased label. -/
def isTarget (termLower : List Char) : Bool :=
  target_keywords.any (fun k => decide (k.data <:+: termLower))

/-- Annotation style used at `visualize.py` lines 94–95: keyword-matched
points get `fontsize=12, fontweight='bold'`; usage-only points get
`fontsize=8, fontweight='normal'`. -/
inductive AnnStyle where
  | boldLarge
  | plain
deriving DecidableEq

/-- The per-record selection step (`visualize.py` lines 86–97):
`term.lower()` raises `AttributeError` on a non-string term; otherwise the
record is annotated when it matches a keyword or its normalized usage
exceeds 0.8, with the bold/larger style exactly when it matches a
keyword. -/
def annotateRecord (term : TermValue) (nu : ℚ) : Except VisError (Option AnnStyle) :=
  match term with
  | .tagged _ => .error .annotationTypeError
  | .str s =>
    let t := isTarget (strLower s.data)
    if t || decide ((8 : ℚ) / 10 < nu) then
      .ok (some (if t then AnnStyle.boldLarge else AnnStyle.plain))
    else .ok none

/-- The selection loop over all records (`visualize.py` lines 82–97),
returning the `annotated_count`; the first `AttributeError` aborts it. -/
def annotateAll : List (TermValue × ℚ) → Except VisError Nat
  | [] => .ok 0
  | (t, nu) :: rest =>
    match annotateRecord t nu with
    | .error e => .error e
    | .ok s => (annotateAll rest).map (fun c => if s.isSome then c + 1 else c)

/-- The `perplexity` argument computed at `visualize.py` line 60:
`min(30, len(data) - 1) if len(data) > 1 else 1`. -/
def perplexity (n : Nat) : Nat :=
  if 1 < n then min 30 (n - 1) else 1

/-- Constructor arguments of scikit-learn's `PCA` as a record, to state
which configuration the script passes. -/
structure PCAArgs where
  n_components : Nat
  random_state : Option Nat
deriving DecidableEq

/-- Constructor arguments of scikit-learn's `TSNE` as a record. -/
structure TSNEArgs where
  n_components : Nat
  random_state : Option Nat
  perplexity : Nat
  init : String
deriving DecidableEq

/-- The PCA construction at `visualize.py` lines 52–54:
`PCA(n_components=min(50, X.shape[0]))`. No `random_state` is passed, so
it keeps scikit-learn's default `None`. -/
def pcaArgs (nSamples : Nat) : PCAArgs :=
  { n_components := min 50 nSamples, random_state := none }

/-- The t-SNE construction at `visualize.py` lines 60–61:
`TSNE(n_components=2, random_state=42, perplexity=perplexity,
init='pca', learning_rate='auto', verbose=1)`. -/
def tsneArgs (nSamples : Nat) : TSNEArgs :=
  { n_components := 2
    random_state := some 42
    perplexity := perplexity nSamples
    init := "pca" }

/-- Python's `str.replace(old, new)` over character lists (all
non-overlapping occurrences, scanned left to right), for a nonempty `old`
— the only case the script uses (`".json"`). The fuel argument (the input
length suffices) only makes the recursion structural. -/
def replaceFuel (old new : List Char) : Nat → List Char → List Char
  | 0, s => s
  | _ + 1, [] => []
  | fuel + 1, c :: cs =>
    if old.isPrefixOf (c :: cs) then
      new ++ replaceFuel old new fuel (List.drop (old.length - 1) cs)
    else
      c :: replaceFuel old new fuel cs

/-- The artifact path computed at `visualize.py` line 107:
`filename.replace('.json', '.png')`. -/
def outputPath (filename : String) : String :=
  String.mk (replaceFuel ".json".data ".png".data filename.data.length filename.data)

/-- Observable stage events of one run of `visualize`. -/
inductive Event where
  | loaded
  | noDataReturn
  | decoded
  | reduced
  | annotated
  | wrote : String → Event
  | failed : VisError → Event
deriving DecidableEq

/-- The control flow of `visualize` (`visualize.py` lines 36–109) as an
event trace. After loading, an empty dataset prints `"No data found."`
and returns normally (lines 40–42). Decoding may abort with the ragged
`ValueError` (modelled by `decode_vectors`). `reduced` marks completion
of both reduction stages: the PCA fit is always well-posed
(`n_components = min(50, n) ≤ n`), and the t-SNE fit requires its
documented precondition `perplexity < n_samples`, raising otherwise. The
annotation loop may abort on a non-string term. `plt.savefig` runs last
(lines 107–108) and only after every prior stage succeeded. -/
def visualizeTrace (filename : String) (data : List ConceptRecord) : List Event :=
  Event.loaded ::
    (if data.isEmpty then [Event.noDataReturn]
     else
       match decode_vectors data with
       | .error e => [Event.failed e]
       | .ok (_, terms, usages) =>
         Event.decoded ::
           (if (tsneArgs data.length).perplexity < data.length then
              Event.reduced ::
                (match annotateAll (terms.zip (normUsages usages)) with
                 | .error e => [Event.failed e]
                 | .ok _ => [Event.annotated, Event.wrote (outputPath filename)])
            else [Event.failed VisError.insufficientData]))

/-- The two-record dataset of the spec's demo scenario, used as a concrete
successful run. -/
def demoData : List ConceptRecord :=
  [{ term := TermValue.str "cat", usage := 10, vector := [1] },
   { term := TermValue.str "dog", usage := 1, vector := [2] }]

end Visualize

namespace Visualize

theorem decodeWord_length (w : Nat) : (decodeWord w).length = 64 := by
  simp [decodeWord, wordWidth]

theorem decodeVector_length (words : List Nat) :
    (decodeVector words).length = 64 * words.length := by
  induction words with
  | nil => simp [decodeVector]
  | cons w ws ih =>
    simp [decodeVector, decodeWord_length] at ih ⊢
    omega

theorem decodeWord_getD (w i : Nat) (h : i < 64) :
    (decodeWord w).getD i 0 = wordBit w i := by
  rw [List.getD_eq_getElem _ _ (by simp [decodeWord_length w, h] :
      i < (decodeWord w).length)]
  simp [decodeWord, wordWidth, h]

theorem decodeVector_getD : ∀ (words : List Nat) (i : Nat), i < 64 * words.length →
    (decodeVector words).getD i 0 =
      words.getD (i / 64) 0 / 2 ^ (8 * (i % 64 / 8) + (7 - i % 8)) % 2 := by
  intro words
  induction words with
  | nil => intro i h; simp at h
  | cons w ws ih =>
    intro i h
    have hsplit : decodeVector (w :: ws) = decodeWord w ++ decodeVector ws := by
      simp [decodeVector]
    rw [hsplit]
    by_cases hc : i < 64
    · rw [List.getD_append _ _ _ _ (by rw [decodeWord_length]; exact hc)]
      rw [decodeWord_getD w i hc]
      have h1 : i / 64 = 0 := Nat.div_eq_of_lt hc
      have h2 : i % 64 = i := Nat.mod_eq_of_lt hc
      rw [h1, h2]
      simp [wordBit]
    · rw [List.getD_append_right _ _ _ _ (by rw [decodeWord_length]; omega)]
      rw [decodeWord_length]
      have h' : i - 64 < 64 * ws.length := by
        simp only [List.length_cons] at h; omega
      rw [ih (i - 64) h']
      have e3 : (i - 64) % 64 = i % 64 := by omega
      have e4 : (i - 64) % 8 = i % 8 := by omega
      rw [e3, e4]
      obtain ⟨m, hm⟩ : ∃ m, i / 64 = m + 1 := ⟨i / 64 - 1, by omega⟩
      have e1 : (i - 64) / 64 = m := by omega
      rw [e1, hm, List.getD_cons_succ]

/-- Claim C1: the spec's least-significant-bit-first decode formula
`decoded[i] = (words[i / 64] >> (i mod 64)) & 1` is falsified at
`words = [1]`, `i = 0`: the decoded vector computed by
`np.unpackbits` after a byte view has bit 0 equal to 0 there, while the
formula gives 1 (the bit of the word `1` instead sits at decoded index
7, because each byte is unpacked most-significant bit first). -/
theorem decode_bit_order_counterexample :
    (decodeVector [1]).getD 0 0 = 0 ∧ (1 : Nat) / 2 ^ (0 % 64) % 2 = 1 ∧
    decodeVectorSpec [1] ≠ decodeVector [1] := by decide

/-- Claim C1 (amended): for every record the decoded dense vector has bit
length `word_count × 64`, and bit `i` of the decoded vector equals bit
`8 * ((i mod 64) / 8) + (7 - i mod 8)` of word `i / 64`: words are
concatenated in stored order, each word is split into bytes
least-significant byte first, and each byte contributes its bits
most-significant bit first. -/
theorem decode_bit_layout (words : List Nat) (i : Nat) (h : i < 64 * words.length) :
    (decodeVector words).length = 64 * words.length ∧
    (decodeVector words).getD i 0 =
      words.getD (i / 64) 0 / 2 ^ (8 * (i % 64 / 8) + (7 - i % 8)) % 2 :=
  ⟨decodeVector_length words, decodeVector_getD words i h⟩

/-- Witness for the amended C1 theorem at `words = [1]`, `i = 7`. -/
theorem decode_bit_layout_witness :
    7 < 64 * ([1] : List Nat).length ∧
    ((decodeVector [1]).length = 64 * ([1] : List Nat).length ∧
     (decodeVector [1]).getD 7 0 =
       ([1] : List Nat).getD (7 / 64) 0 / 2 ^ (8 * (7 % 64 / 8) + (7 - 7 % 8)) % 2) :=
  ⟨by decide, decode_bit_layout [1] 7 (by decide)⟩

/-- Claim C2: falsified. On an empty dataset `visualize` prints
`"No data found."` and returns normally (lines 40–42): the trace holds no
`EmptyDatasetError` (nor any other error) — the run is a silent success,
halting before reduction but not reported as a terminal error. -/
theorem empty_dataset_counterexample :
    visualizeTrace "memory.json" [] = [Event.loaded, Event.noDataReturn] ∧
    Event.failed VisError.emptyDataset ∉ visualizeTrace "memory.json" [] ∧
    Event.reduced ∉ visualizeTrace "memory.json" [] := by decide

/-- Claim C2 (amended): on an empty dataset the pipeline halts before any
reduction is attempted, but by a normal early return (printing
`"No data found."`, process exit status 0), raising no error at all. -/
theorem empty_dataset_silent_return (fn : String) :
    visualizeTrace fn [] = [Event.loaded, Event.noDataReturn] ∧
    (∀ e, Event.failed e ∉ visualizeTrace fn []) ∧
    Event.reduced ∉ visualizeTrace fn [] := by
  refine ⟨by simp [visualizeTrace], fun e => ?_, ?_⟩ <;> simp [visualizeTrace]

/-- Claim C7: falsified. The script fixes a seed only for t-SNE
(`random_state=42`, line 61); the `PCA` constructed at line 54 is passed
no `random_state` at all, so it is not true that both reduction stages
use a fixed seed. -/
theorem reduction_seed_counterexample :
    ¬ ((pcaArgs 100).random_state.isSome = true ∧
       (tsneArgs 100).random_state.isSome = true) := by decide

/-- Claim C7 (amended): only the nonlinear stage-B embedding is
constructed with a fixed seed (`random_state=42`); the linear stage-A
projection is constructed with no `random_state` (scikit-learn's default
`None`), so two-run reproducibility is not secured by explicit seeding of
both stages. -/
theorem reduction_seed_config (n : Nat) :
    (pcaArgs n).random_state = none ∧ (tsneArgs n).random_state = some 42 :=
  ⟨rfl, rfl⟩

end Visualize

namespace Visualize

/-- Claim C3: a dataset with exactly one record passes loading and
decoding, but the reduction stage fails: the t-SNE fit is given
`perplexity = 1` with `n_samples = 1`, violating its requirement
`perplexity < n_samples`, so the run terminates with the
insufficient-data error before annotation or rendering. -/
theorem singleton_insufficient_data (fn : String) (data : List ConceptRecord)
    (h : data.length = 1) :
    visualizeTrace fn data =
      [Event.loaded, Event.decoded, Event.failed VisError.insufficientData] := by
  obtain ⟨r, rfl⟩ := List.length_eq_one.mp h
  simp [visualizeTrace, decode_vectors, tsneArgs, perplexity]

/-- Witness for C3 on a concrete one-record dataset. -/
theorem singleton_insufficient_data_witness :
    ([({ term := TermValue.str "cat", usage := 0, vector := [0] } : ConceptRecord)]).length = 1 ∧
    visualizeTrace "memory.json"
        [({ term := TermValue.str "cat", usage := 0, vector := [0] } : ConceptRecord)] =
      [Event.loaded, Event.decoded, Event.failed VisError.insufficientData] :=
  ⟨rfl, singleton_insufficient_data "memory.json" _ rfl⟩

/-- Claim C4: when some record's vector word count differs from the first
record's, the decoded bit rows are ragged, `np.array(vectors)` raises,
and the run aborts with the dimension-mismatch error immediately after
loading. -/
theorem dimension_mismatch_aborts (fn : String) (r0 : ConceptRecord)
    (rest : List ConceptRecord)
    (h : ∃ r ∈ rest, r.vector.length ≠ r0.vector.length) :
    decode_vectors (r0 :: rest) = .error VisError.dimensionMismatch ∧
    visualizeTrace fn (r0 :: rest) = [Event.loaded, Event.failed VisError.dimensionMismatch] := by
  obtain ⟨r, hr, hne⟩ := h
  have hdec : decode_vectors (r0 :: rest) = .error VisError.dimensionMismatch := by
    unfold decode_vectors
    rw [if_neg]
    intro hall
    rw [List.all_eq_true] at hall
    have hx := hall r (List.mem_cons_of_mem _ hr)
    simp at hx
    exact hne hx
  exact ⟨hdec, by simp [visualizeTrace, hdec]⟩

/-- Witness for C4 on two records with word counts 1 and 2. -/
theorem dimension_mismatch_aborts_witness :
    (∃ r ∈ [({ term := TermValue.str "dog", usage := 0, vector := [1, 2] } : ConceptRecord)],
        r.vector.length ≠
          ({ term := TermValue.str "cat", usage := 0, vector := [0] } : ConceptRecord).vector.length) ∧
    (decode_vectors
        [({ term := TermValue.str "cat", usage := 0, vector := [0] } : ConceptRecord),
         { term := TermValue.str "dog", usage := 0, vector := [1, 2] }] =
      .error VisError.dimensionMismatch ∧
    visualizeTrace "memory.json"
        [({ term := TermValue.str "cat", usage := 0, vector := [0] } : ConceptRecord),
         { term := TermValue.str "dog", usage := 0, vector := [1, 2] }] =
      [Event.loaded, Event.failed VisError.dimensionMismatch]) :=
  ⟨by decide, dimension_mismatch_aborts "memory.json" _ _ (by decide)⟩

end Visualize

namespace Visualize

theorem replaceFuel_json (stem : List Char) : '.' ∉ stem →
    replaceFuel ".json".data ".png".data (stem.length + 5) (stem ++ ".json".data) =
      stem ++ ".png".data := by
  induction stem with
  | nil => intro _; rfl
  | cons c cs ih =>
    intro h
    have hc : ('.' : Char) ≠ c := fun he => h (he ▸ List.mem_cons_self c cs)
    have hcs : '.' ∉ cs := fun hm => h (List.mem_cons_of_mem _ hm)
    have hpf : (".json".data).isPrefixOf (c :: (cs ++ ".json".data)) = false := by
      show (('.' :: "json".data).isPrefixOf (c :: (cs ++ ".json".data))) = false
      simp [List.isPrefixOf, hc]
    show replaceFuel ".json".data ".png".data ((cs.length + 5) + 1)
        (c :: (cs ++ ".json".data)) = c :: (cs ++ ".png".data)
    rw [replaceFuel, hpf]
    simp only [Bool.false_eq_true, if_false]
    rw [ih hcs]

/-- Claim C9: falsified. Line 107 computes the artifact path with
`filename.replace('.json', '.png')`, which substitutes every occurrence
of the substring `".json"` rather than replacing the path's extension:
for the input path `"embeddings.txt"` the artifact path is
`"embeddings.txt"` itself (the input file would be overwritten by the
image), not `"embeddings.png"`. -/
theorem output_path_counterexample :
    outputPath "embeddings.txt" = "embeddings.txt" ∧
    outputPath "embeddings.txt" ≠ "embeddings.png" := by decide

/-- Claim C9 (amended): the artifact path is the input path with every
occurrence of the substring `".json"` replaced by `".png"` (Python
`str.replace`); the existing file at that path, if any, is overwritten by
`savefig`. For a path consisting of a dot-free stem followed by the
`".json"` extension this coincides with replacing the extension. -/
theorem output_path_json_suffix (stem : List Char) (h : '.' ∉ stem) :
    outputPath (String.mk (stem ++ ".json".data)) = String.mk (stem ++ ".png".data) := by
  unfold outputPath
  have hdata : (String.mk (stem ++ ".json".data)).data = stem ++ ".json".data := rfl
  rw [hdata]
  have hlen : (stem ++ ".json".data).length = stem.length + 5 := by simp
  rw [hlen, replaceFuel_json stem h]

/-- Witness for the amended C9 theorem at stem `"memory"`. -/
theorem output_path_json_suffix_witness :
    ('.' ∉ "memory".data) ∧
    outputPath (String.mk ("memory".data ++ ".json".data)) =
      String.mk ("memory".data ++ ".png".data) :=
  ⟨by decide, output_path_json_suffix "memory".data (by decide)⟩

end Visualize

namespace Visualize

theorem foldl_min_le_init (l : List Nat) : ∀ a : Nat, l.foldl Nat.min a ≤ a := by
  induction l with
  | nil => intro a; simp
  | cons x xs ih =>
    intro a
    exact le_trans (ih (Nat.min a x)) (Nat.min_le_left a x)

theorem foldl_min_le_mem (l : List Nat) : ∀ (a x : Nat), x ∈ l → l.foldl Nat.min a ≤ x := by
  induction l with
  | nil => intro a x hx; simp at hx
  | cons y ys ih =>
    intro a x hx
    rcases List.mem_cons.mp hx with rfl | hm
    · exact le_trans (foldl_min_le_init ys (Nat.min a x)) (Nat.min_le_right a x)
    · exact ih _ x hm

theorem init_le_foldl_max (l : List Nat) : ∀ a : Nat, a ≤ l.foldl Nat.max a := by
  induction l with
  | nil => intro a; simp
  | cons x xs ih =>
    intro a
    exact le_trans (Nat.le_max_left a x) (ih (Nat.max a x))

theorem mem_le_foldl_max (l : List Nat) : ∀ (a x : Nat), x ∈ l → x ≤ l.foldl Nat.max a := by
  induction l with
  | nil => intro a x hx; simp at hx
  | cons y ys ih =>
    intro a x hx
    rcases List.mem_cons.mp hx with rfl | hm
    · exact le_trans (Nat.le_max_right a x) (init_le_foldl_max ys (Nat.max a x))
    · exact ih _ x hm

theorem npMin_le_mem (l : List Nat) (x : Nat) (hx : x ∈ l) : npMin l ≤ x := by
  cases l with
  | nil => simp at hx
  | cons y ys =>
    rcases List.mem_cons.mp hx with rfl | hm
    · exact foldl_min_le_init ys x
    · exact foldl_min_le_mem ys y x hm

theorem mem_le_npMax (l : List Nat) (x : Nat) (hx : x ∈ l) : x ≤ npMax l := by
  cases l with
  | nil => simp at hx
  | cons y ys =>
    rcases List.mem_cons.mp hx with rfl | hm
    · exact init_le_foldl_max ys x
    · exact mem_le_foldl_max ys y x hm

theorem normUsages_length (usages : List Nat) :
    (normUsages usages).length = usages.length := by
  unfold normUsages
  split <;> simp

/-- Claim C5: usage normalization is min–max scaling over the whole
dataset. When `max > min` every normalized value is
`(usage − min) / (max − min)`, lies in `[0, 1]`, the minimum maps to 0
and the maximum to 1; when `max == min` every normalized value is
exactly 0. -/
theorem usage_normalization (usages : List Nat) (i : Nat) (h : i < usages.length) :
    (npMin usages < npMax usages →
       (normUsages usages).getD i 0 =
         ((usages.getD i 0 : ℚ) - (npMin usages : ℚ)) /
           ((npMax usages : ℚ) - (npMin usages : ℚ)) ∧
       0 ≤ (normUsages usages).getD i 0 ∧ (normUsages usages).getD i 0 ≤ 1 ∧
       (usages.getD i 0 = npMin usages → (normUsages usages).getD i 0 = 0) ∧
       (usages.getD i 0 = npMax usages → (normUsages usages).getD i 0 = 1)) ∧
    (npMax usages = npMin usages → (normUsages usages).getD i 0 = 0) := by
  constructor
  · intro hlt
    have hmem : usages.getD i 0 ∈ usages := by
      rw [List.getD_eq_getElem _ _ h]
      exact List.getElem_mem h
    have hmin : npMin usages ≤ usages.getD i 0 := npMin_le_mem _ _ hmem
    have hmax : usages.getD i 0 ≤ npMax usages := mem_le_npMax _ _ hmem
    have hlen : i < (normUsages usages).length := by rw [normUsages_length]; exact h
    have hval : (normUsages usages).getD i 0 =
        ((usages.getD i 0 : ℚ) - (npMin usages : ℚ)) /
          ((npMax usages : ℚ) - (npMin usages : ℚ)) := by
      rw [List.getD_eq_getElem _ _ hlen, List.getD_eq_getElem _ _ h]
      simp only [normUsages, if_pos hlt, List.getElem_map]
    have hden : (0 : ℚ) < (npMax usages : ℚ) - (npMin usages : ℚ) := by
      rw [sub_pos]
      exact_mod_cast hlt
    refine ⟨hval, ?_, ?_, ?_, ?_⟩
    · rw [hval]
      apply div_nonneg _ (le_of_lt hden)
      rw [sub_nonneg]
      exact_mod_cast hmin
    · rw [hval, div_le_one hden]
      apply sub_le_sub_right
      exact_mod_cast hmax
    · intro he
      rw [hval, he]
      simp
    · intro he
      rw [hval, he]
      exact div_self (ne_of_gt hden)
  · intro heq
    have hlen : i < (normUsages usages).length := by rw [normUsages_length]; exact h
    rw [List.getD_eq_getElem _ _ hlen]
    simp only [normUsages, if_neg (by omega : ¬ npMin usages < npMax usages), List.getElem_map]

/-- Witness for C5 at `usages = [10, 1, 4]`, `i = 0`. -/
theorem usage_normalization_witness :
    0 < ([10, 1, 4] : List Nat).length ∧
    ((npMin [10, 1, 4] < npMax [10, 1, 4] →
       (normUsages [10, 1, 4]).getD 0 0 =
         ((([10, 1, 4] : List Nat).getD 0 0 : ℚ) - (npMin [10, 1, 4] : ℚ)) /
           ((npMax [10, 1, 4] : ℚ) - (npMin [10, 1, 4] : ℚ)) ∧
       0 ≤ (normUsages [10, 1, 4]).getD 0 0 ∧ (normUsages [10, 1, 4]).getD 0 0 ≤ 1 ∧
       (([10, 1, 4] : List Nat).getD 0 0 = npMin [10, 1, 4] →
         (normUsages [10, 1, 4]).getD 0 0 = 0) ∧
       (([10, 1, 4] : List Nat).getD 0 0 = npMax [10, 1, 4] →
         (normUsages [10, 1, 4]).getD 0 0 = 1)) ∧
    (npMax [10, 1, 4] = npMin [10, 1, 4] → (normUsages [10, 1, 4]).getD 0 0 = 0)) :=
  ⟨by decide, usage_normalization [10, 1, 4] 0 (by decide)⟩

end Visualize

namespace Visualize

theorem keywords_lowercase : ∀ k ∈ target_keywords, strLower k.data = k.data := by decide

theorem isTarget_iff (t : List Char) :
    isTarget t = true ↔ ∃ k ∈ target_keywords, strLower k.data <:+: t := by
  simp only [isTarget, List.any_eq_true, decide_eq_true_eq]
  constructor
  · rintro ⟨k, hk, hinf⟩
    exact ⟨k, hk, by rw [keywords_lowercase k hk]; exact hinf⟩
  · rintro ⟨k, hk, hinf⟩
    exact ⟨k, hk, by rw [keywords_lowercase k hk] at hinf; exact hinf⟩

/-- Claim C6: a record whose lowercased label contains a configured
keyword (all keywords are lowercase, so this is case-insensitive
containment) is annotated with the bold/larger style regardless of its
normalized usage; a record with no keyword match whose normalized usage
exceeds 0.8 is annotated with the plain style. -/
theorem keyword_selection (s : String) (nu : ℚ) :
    ((∃ k ∈ target_keywords, strLower k.data <:+: strLower s.data) →
       annotateRecord (TermValue.str s) nu = .ok (some AnnStyle.boldLarge)) ∧
    ((¬ ∃ k ∈ target_keywords, strLower k.data <:+: strLower s.data) →
       (8 : ℚ) / 10 < nu →
       annotateRecord (TermValue.str s) nu = .ok (some AnnStyle.plain)) := by
  constructor
  · intro hx
    have ht : isTarget (strLower s.data) = true := (isTarget_iff _).mpr hx
    simp [annotateRecord, ht]
  · intro hnx hu
    have ht : isTarget (strLower s.data) = false := by
      rw [Bool.eq_false_iff]
      intro hc
      exact hnx ((isTarget_iff _).mp hc)
    simp [annotateRecord, ht, hu]

/-- Witness for C6: `"Atom(cat)"` matches the keyword `"cat"` and is
annotated bold regardless of usage 0; `"fish"` matches no keyword and is
annotated plain at normalized usage 9/10 > 8/10. -/
theorem keyword_selection_witness :
    annotateRecord (TermValue.str "Atom(cat)") 0 = .ok (some AnnStyle.boldLarge) ∧
    annotateRecord (TermValue.str "fish") (9 / 10) = .ok (some AnnStyle.plain) :=
  ⟨(keyword_selection "Atom(cat)" 0).1 (by decide),
   (keyword_selection "fish" (9 / 10)).2 (by decide) (by norm_num)⟩

end Visualize

namespace Visualize

/-- Claim C8: an artifact write event occurs in a run's trace only when
every earlier stage (load, decode, both reduction stages, annotation)
succeeded; in that case the trace is exactly the successful one, with the
write last, at the derived output path, and with no failure event. -/
theorem artifact_only_on_success (fn : String) (data : List ConceptRecord) (p : String)
    (h : Event.wrote p ∈ visualizeTrace fn data) :
    p = outputPath fn ∧
    visualizeTrace fn data =
      [Event.loaded, Event.decoded, Event.reduced, Event.annotated,
       Event.wrote (outputPath fn)] := by
  unfold visualizeTrace at h ⊢
  by_cases he : data.isEmpty
  · rw [if_pos he] at h
    simp at h
  · rw [if_neg he] at h ⊢
    cases hdec : decode_vectors data with
    | error e =>
      rw [hdec] at h
      simp at h
    | ok v =>
      obtain ⟨X, terms, usages⟩ := v
      rw [hdec] at h
      dsimp only at h ⊢
      by_cases hp : (tsneArgs data.length).perplexity < data.length
      · rw [if_pos hp] at h ⊢
        cases hann : annotateAll (terms.zip (normUsages usages)) with
        | error e =>
          rw [hann] at h
          simp at h
        | ok c =>
          rw [hann] at h
          simp at h
          exact ⟨h, rfl⟩
      · rw [if_neg hp] at h
        simp at h

/-- Witness for C8: the successful two-record demo run writes
`memory.png`. -/
theorem artifact_only_on_success_witness :
    Event.wrote "memory.png" ∈ visualizeTrace "memory.json" demoData ∧
    ("memory.png" = outputPath "memory.json" ∧
     visualizeTrace "memory.json" demoData =
       [Event.loaded, Event.decoded, Event.reduced, Event.annotated,
        Event.wrote (outputPath "memory.json")]) :=
  ⟨by decide, artifact_only_on_success "memory.json" demoData "memory.png" (by decide)⟩

end Visualize

namespace Visualize

theorem annotateRecord_str_isOk (s : String) (nu : ℚ) :
    ∃ o, annotateRecord (TermValue.str s) nu = .ok o := by
  simp only [annotateRecord]
  split
  · exact ⟨_, rfl⟩
  · exact ⟨_, rfl⟩

theorem annotateAll_error_of_nonstring :
    ∀ ps : List (TermValue × ℚ), (∃ q ∈ ps, ∀ s, q.1 ≠ TermValue.str s) →
      annotateAll ps = .error VisError.annotationTypeError := by
  intro ps
  induction ps with
  | nil =>
    rintro ⟨q, hq, -⟩
    simp at hq
  | cons q qs ih =>
    rintro ⟨q', hq', hns⟩
    obtain ⟨t, nu⟩ := q
    rcases List.mem_cons.mp hq' with heq | hmem
    · cases t with
      | str s =>
        exact absurd (by rw [heq] : q'.1 = TermValue.str s) (hns s)
      | tagged l => simp [annotateAll, annotateRecord]
    · cases t with
      | tagged l => simp [annotateAll, annotateRecord]
      | str s =>
        have htl := ih ⟨q', hmem, hns⟩
        obtain ⟨o, ho⟩ := annotateRecord_str_isOk s nu
        simp [annotateAll, ho, htl, Except.map]

theorem term_mem_zip (r : ConceptRecord) :
    ∀ (data : List ConceptRecord) (qs : List ℚ), data.length = qs.length → r ∈ data →
      ∃ nu, (r.term, nu) ∈ (data.map (fun x => x.term)).zip qs := by
  intro data
  induction data with
  | nil =>
    intro qs _ hr
    simp at hr
  | cons d ds ih =>
    intro qs hlen hr
    cases qs with
    | nil => simp at hlen
    | cons q qs' =>
      rcases List.mem_cons.mp hr with rfl | hmem
      · exact ⟨q, List.mem_cons_self _ _⟩
      · obtain ⟨nu, hnu⟩ := ih qs' (by simpa using hlen) hmem
        exact ⟨nu, List.mem_cons_of_mem _ hnu⟩

/-- Claim C10: the selection stage assumes every term is a plain string.
Any batch of records containing a non-string term makes the annotation
loop fail with the lowercasing `AttributeError` instead of completing,
and a run whose trace reaches the `annotated` event has only string
terms. -/
theorem annotation_requires_string (fn : String) (data : List ConceptRecord)
    (pairs : List (TermValue × ℚ)) :
    ((∃ q ∈ pairs, ∀ s, q.1 ≠ TermValue.str s) →
        annotateAll pairs = .error VisError.annotationTypeError) ∧
    (Event.annotated ∈ visualizeTrace fn data →
        ∀ r ∈ data, ∃ s, r.term = TermValue.str s) := by
  refine ⟨annotateAll_error_of_nonstring pairs, ?_⟩
  intro hann r hr
  by_contra hns
  push_neg at hns
  unfold visualizeTrace at hann
  by_cases he : data.isEmpty
  · rw [if_pos he] at hann
    simp at hann
  · rw [if_neg he] at hann
    cases hdec : decode_vectors data with
    | error e =>
      rw [hdec] at hann
      simp at hann
    | ok v =>
      obtain ⟨X, terms, usages⟩ := v
      rw [hdec] at hann
      dsimp only at hann
      have hTU : terms = data.map (fun x => x.term) ∧
          usages = data.map (fun x => x.usage) := by
        unfold decode_vectors at hdec
        split at hdec
        · simp only [Except.ok.injEq, Prod.mk.injEq] at hdec
          exact ⟨hdec.2.1.symm, hdec.2.2.symm⟩
        · simp at hdec
      obtain ⟨hT, hU⟩ := hTU
      subst hT hU
      by_cases hp : (tsneArgs data.length).perplexity < data.length
      · rw [if_pos hp] at hann
        have hlen : data.length = (normUsages (data.map (fun x => x.usage))).length := by
          rw [normUsages_length, List.length_map]
        obtain ⟨nu, hnu⟩ := term_mem_zip r data (normUsages (data.map (fun x => x.usage))) hlen hr
        have herr := annotateAll_error_of_nonstring
          ((data.map (fun x => x.term)).zip (normUsages (data.map (fun x => x.usage))))
          ⟨(r.term, nu), hnu, fun s hc => hns s hc⟩
        rw [herr] at hann
        simp at hann
      · rw [if_neg hp] at hann
        simp at hann

/-- Witness for C10 on a one-element batch with a nested (non-string)
term. -/
theorem annotation_requires_string_witness :
    (∃ q ∈ [((TermValue.tagged []), (0 : ℚ))], ∀ s, q.1 ≠ TermValue.str s) ∧
    annotateAll [((TermValue.tagged []), (0 : ℚ))] = .error VisError.annotationTypeError :=
  ⟨⟨(TermValue.tagged [], 0), List.mem_singleton.mpr rfl, fun _ h => TermValue.noConfusion h⟩,
   (annotation_requires_string "memory.json" [] [((TermValue.tagged []), (0 : ℚ))]).1
     ⟨(TermValue.tagged [], 0), List.mem_singleton.mpr rfl, fun _ h => TermValue.noConfusion h⟩⟩

end Visualize
